import Mathlib

/-!
Verification of the filter-and-dispatch core of `onioningestor/operators/__init__.py`.

The file shallow-embeds the `Operator` base class: the blacklist pattern built in
`Operator.__init__`, the envelope builder `Operator.response`, the classifier
`Operator._onion_is_allowed`, and the dispatch loop `Operator.process`.  Python
values are modelled by the inductive `PyVal`; Python dicts are association lists
manipulated with the dict primitives below; exceptions are modelled by `Except`
over `PyErr`; the side effects of an operator (info logging, `es.save`, handler
invocations) are threaded through an explicit `ProcState`.
-/

/-- Python values that flow through the operator core.  Dict keys in this code
are always strings.  JSON floats are outside the modelled fragment (no payload
of this program uses them), so numbers are integers. -/
inductive PyVal where
  | pynone
  | pybool (b : Bool)
  | pyint (n : Int)
  | str (s : String)
  | list (xs : List PyVal)
  | dict (kvs : List (String × PyVal))

/-- Python `d[key]` read on a string-keyed dict.  Dicts built by `dictSet` and
`mkDict` never hold duplicate keys, so taking the first hit is exact. -/
def dictLookup : List (String × PyVal) → String → Option PyVal
  | [], _ => none
  | (k, v) :: rest, key => if k = key then some v else dictLookup rest key

/-- Python `d[key] = v`: replaces the value in place when the key exists
(keeping its position), otherwise appends the new entry at the end. -/
def dictSet : List (String × PyVal) → String → PyVal → List (String × PyVal)
  | [], key, v => [(key, v)]
  | (k, w) :: rest, key, v =>
      if k = key then (k, v) :: rest else (k, w) :: dictSet rest key v

/-- Python `d.pop(key)` with no default: the removed value and the remaining
entries; `none` models the `KeyError` raised when the key is absent. -/
def dictPop : List (String × PyVal) → String → Option (PyVal × List (String × PyVal))
  | [], _ => none
  | (k, v) :: rest, key =>
      if k = key then some (v, rest)
      else
        match dictPop rest key with
        | some (x, r) => some (x, (k, v) :: r)
        | none => none

/-- A Python dict literal `\x7bk1: v1, ..., kn: vn\x7d`: entries are inserted in
order, so a later duplicate key overrides an earlier one (last wins). -/
def mkDict (pairs : List (String × PyVal)) : List (String × PyVal) :=
  pairs.foldl (fun d kv => dictSet d kv.1 kv.2) []

/-- Read a key of an envelope (a `PyVal.dict`); `none` on a non-dict or a
missing key. -/
def envGet (env : PyVal) (key : String) : Option PyVal :=
  match env with
  | .dict kvs => dictLookup kvs key
  | _ => none

/-- Python `repr` of a string, restricted to the fragment this program prints:
single-quote wrapping with the quote and the backslash escaped, or double-quote
wrapping when the text contains a single quote but no double quote
(control-character escaping is omitted; no payload here needs it). -/
def pyReprOfString (s : String) : String :=
  if s.data.contains '\x27' && !(s.data.contains '"') then
    "\"" ++ s ++ "\""
  else
    "\x27" ++
      String.mk (s.data.foldr
        (fun c acc => if c = '\x27' ∨ c = '\\' then '\\' :: c :: acc else c :: acc) []) ++
      "\x27"

mutual

/-- Python `repr` on the modelled values: `None`/`True`/`False`, decimal
integers, quoted strings, and bracketed containers with `, ` separators —
exactly what `str(content)` produces when `Operator.response` stringifies a
non-string payload. -/
def pyRepr : PyVal → String
  | .pynone => "None"
  | .pybool true => "True"
  | .pybool false => "False"
  | .pyint n => toString n
  | .str s => pyReprOfString s
  | .list xs => "[" ++ pyReprList xs ++ "]"
  | .dict kvs => "\x7b" ++ pyReprDict kvs ++ "\x7d"

/-- Comma-separated `repr` of list elements. -/
def pyReprList : List PyVal → String
  | [] => ""
  | [x] => pyRepr x
  | x :: y :: rest => pyRepr x ++ ", " ++ pyReprList (y :: rest)

/-- Comma-separated `repr` of dict entries, `key: value` style. -/
def pyReprDict : List (String × PyVal) → String
  | [] => ""
  | [(k, v)] => pyReprOfString k ++ ": " ++ pyRepr v
  | (k, v) :: e :: rest => pyReprOfString k ++ ": " ++ pyRepr v ++ ", " ++ pyReprDict (e :: rest)

end

/-- Python `str(x)`: the identity on strings, `repr` on the other values. -/
def pyStr : PyVal → String
  | .str s => s
  | v => pyRepr v

/-- Case-fold a string to a lowercase character list.  `re.IGNORECASE` is
modelled as character-wise lowercasing, which agrees with Python on the ASCII
texts this program matches. -/
def lc (s : String) : List Char := s.data.map Char.toLower

/-- `startsWithL n h`: the run `n` occurs at the head of `h`. -/
def startsWithL : List Char → List Char → Bool
  | [], _ => true
  | _ :: _, [] => false
  | a :: as, b :: bs => a == b && startsWithL as bs

/-- `occursIn n h`: the run `n` occurs contiguously somewhere in `h`. -/
def occursIn (n : List Char) : List Char → Bool
  | [] => n.isEmpty
  | c :: t => startsWithL n (c :: t) || occursIn n t

/-- Truthiness of `self.blacklist.findall(text)` for the pattern built in
`Operator.__init__`: `re.compile('|'.join([re.escape(w) for w in sources]),
re.IGNORECASE)`.  The escaped alternation matches at a position iff some
literal occurs there (case-insensitively, and literally thanks to
`re.escape`); for `sources = []` the joined pattern is the empty pattern,
which matches the empty string at position 0, so `findall` is non-empty on
every text. -/
def blacklistMatches (sources : List String) (text : String) : Bool :=
  sources.isEmpty || sources.any (fun w => occursIn (lc w) (lc text))

/-- Spec-side notion, stated from the spec's words for comparison with the
compiled pattern: `w` occurs as a case-insensitive substring of `text`. -/
def CiSubstring (w text : String) : Prop :=
  ∃ p t, lc text = p ++ lc w ++ t

/-- Python exceptions that can escape the modelled code. -/
inductive PyErr where
  | keyError (key : String)
  | typeError
  | nameError
  | notImplementedError
deriving DecidableEq

/-- `Operator.__init__(logger, elasticsearch, allowed_sources=None)`: the line
`self.blacklist = re.compile('|'.join([re.escape(word) for word in
allowed_sources]), re.IGNORECASE)`.  With the default `None` the comprehension
raises `TypeError`; with any list argument (the empty list included) the
comprehension and `re.compile` succeed, and the operator holds the literal
list, whose matcher semantics is `blacklistMatches`. -/
def operatorInit (allowed_sources : Option (List String)) : Except PyErr (List String) :=
  match allowed_sources with
  | none => Except.error PyErr.typeError
  | some ws => Except.ok ws

/-- Drop leading JSON whitespace. -/
def skipWs : List Char → List Char
  | [] => []
  | c :: rest =>
      if c = ' ' ∨ c = '\t' ∨ c = '\n' ∨ c = '\r' then skipWs rest else c :: rest

/-- ASCII decimal digit test. -/
def isDigitCh (c : Char) : Bool := '0' ≤ c && c ≤ '9'

/-- Split a leading run of digits from the input. -/
def takeDigits : List Char → List Char × List Char
  | [] => ([], [])
  | c :: rest =>
      if isDigitCh c then
        let p := takeDigits rest
        (c :: p.1, p.2)
      else ([], c :: rest)

/-- Decimal value of a digit run. -/
def digitsToNat (ds : List Char) : Nat :=
  ds.foldl (fun a c => a * 10 + (c.toNat - 48)) 0

/-- Parse the body of a JSON string literal, the opening quote already
consumed.  Escapes handled: quote, backslash, slash, `n`, `t`, `r` (the
fragment the modelled payloads use); other escapes are rejected. -/
def parseStringBody : List Char → Option (String × List Char)
  | [] => none
  | c :: rest =>
      if c = '"' then some ("", rest)
      else if c = '\\' then
        match rest with
        | [] => none
        | e :: rest2 =>
          let ec : Option Char :=
            if e = '"' then some '"'
            else if e = '\\' then some '\\'
            else if e = '/' then some '/'
            else if e = 'n' then some '\n'
            else if e = 't' then some '\t'
            else if e = 'r' then some '\r'
            else none
          match ec with
          | some ch =>
            match parseStringBody rest2 with
            | some (s, r) => some (String.mk (ch :: s.data), r)
            | none => none
          | none => none
      else
        match parseStringBody rest with
        | some (s, r) => some (String.mk (c :: s.data), r)
        | none => none

mutual

/-- Parse one JSON value; `fuel` bounds the recursion depth.  Grammar is the
fragment of RFC JSON the payloads of this program exercise: `null`, booleans,
integers, strings, arrays, and objects (floats and exponent forms are outside
the fragment). -/
def parseVal : Nat → List Char → Option (PyVal × List Char)
  | 0, _ => none
  | fuel + 1, cs =>
    match skipWs cs with
    | [] => none
    | c :: rest =>
      if c = 'n' then
        match rest with
        | 'u' :: 'l' :: 'l' :: r => some (.pynone, r)
        | _ => none
      else if c = 't' then
        match rest with
        | 'r' :: 'u' :: 'e' :: r => some (.pybool true, r)
        | _ => none
      else if c = 'f' then
        match rest with
        | 'a' :: 'l' :: 's' :: 'e' :: r => some (.pybool false, r)
        | _ => none
      else if c = '"' then
        match parseStringBody rest with
        | some (s, r) => some (.str s, r)
        | none => none
      else if c = '-' then
        match takeDigits rest with
        | ([], _) => none
        | (ds, r) => some (.pyint (-(digitsToNat ds : Int)), r)
      else if isDigitCh c then
        let p := takeDigits (c :: rest)
        some (.pyint (digitsToNat p.1), p.2)
      else if c = '[' then
        match skipWs rest with
        | ']' :: r => some (.list [], r)
        | _ =>
          match parseItems fuel rest with
          | some (xs, r) => some (.list xs, r)
          | none => none
      else if c = '\x7b' then
        match skipWs rest with
        | '\x7d' :: r => some (.dict [], r)
        | _ =>
          match parseMembers fuel rest with
          | some (kvs, r) => some (.dict (mkDict kvs), r)
          | none => none
      else none

/-- Parse a non-empty comma-separated run of array items up to `]`. -/
def parseItems : Nat → List Char → Option (List PyVal × List Char)
  | 0, _ => none
  | fuel + 1, cs =>
    match parseVal fuel cs with
    | some (v, r) =>
      match skipWs r with
      | ',' :: r2 =>
        match parseItems fuel r2 with
        | some (vs, r3) => some (v :: vs, r3)
        | none => none
      | ']' :: r2 => some ([v], r2)
      | _ => none
    | none => none

/-- Parse non-empty `"key": value` members up to the closing brace. -/
def parseMembers : Nat → List Char → Option (List (String × PyVal) × List Char)
  | 0, _ => none
  | fuel + 1, cs =>
    match skipWs cs with
    | '"' :: rest =>
      match parseStringBody rest with
      | some (k, r) =>
        match skipWs r with
        | ':' :: r2 =>
          match parseVal fuel r2 with
          | some (v, r3) =>
            match skipWs r3 with
            | ',' :: r4 =>
              match parseMembers fuel r4 with
              | some (kvs, r5) => some ((k, v) :: kvs, r5)
              | none => none
            | '\x7d' :: r4 => some ([(k, v)], r4)
            | _ => none
          | none => none
        | _ => none
      | none => none
    | _ => none

end

/-- Model of `json.loads` on the grammar fragment above: parse one value and
accept only trailing whitespace after it; `none` models
`json.decoder.JSONDecodeError`. -/
def jsonLoads (s : String) : Option PyVal :=
  match parseVal (2 * s.data.length + 2) s.data with
  | some (v, r) => if (skipWs r).isEmpty then some v else none
  | none => none

/-- `Operator.response(content, onion, operator_name)`: try
`json.loads(str(content))` and wrap the decoded value, falling back to the raw
`content` after `logger.info('JosnDecode Error')` on a decode failure.  The
result pairs the returned envelope with the list of info-log messages emitted.
The trailing `except Exception` branch of the source (error log, implicit
`None` return) is unreachable on the modelled values: `str`, `json.loads`
applied to a `str`, and a dict literal raise nothing but `JSONDecodeError`,
so the model is total. -/
def response (content : PyVal) (onion : String) (operator_name : String) :
    PyVal × List String :=
  match jsonLoads (pyStr content) with
  | some decoded =>
      (.dict (mkDict [(operator_name, decoded), ("hiddenService", .str onion)]), [])
  | none =>
      (.dict (mkDict [(operator_name, content), ("hiddenService", .str onion)]),
        ["JosnDecode Error"])

/-- `Operator._onion_is_allowed(response, type)`.  Returns
`(allowed, response after mutation, envelopes saved to the store)`.
`type='URL'` tests `response['hiddenService']` (the `print` to stdout is not
modelled); `type='HTML'` first pops `response['simple-html']['status']` and
re-sets it to `'blocked'`, then tests `response['simple-html']['HTML']`.  A
truthy `findall` leads to `self.es.save(response)` and `False`; otherwise
`True` with no save.  Any other `type` leaves the local `blacklist` unbound,
a `NameError` at the final `if`; missing keys are `KeyError`, non-dict or
non-string subscripts `TypeError`. -/
def onion_is_allowed (sources : List String) (resp : PyVal) (ty : String) :
    Except PyErr (Bool × PyVal × List PyVal) :=
  if ty = "URL" then
    match resp with
    | .dict d =>
      match dictLookup d "hiddenService" with
      | none => Except.error (PyErr.keyError "hiddenService")
      | some hv =>
        match hv with
        | .str hs =>
          if blacklistMatches sources hs then Except.ok (false, resp, [resp])
          else Except.ok (true, resp, [])
        | _ => Except.error PyErr.typeError
    | _ => Except.error PyErr.typeError
  else if ty = "HTML" then
    match resp with
    | .dict d =>
      match dictLookup d "simple-html" with
      | none => Except.error (PyErr.keyError "simple-html")
      | some shv =>
        match shv with
        | .dict sh =>
          match dictPop sh "status" with
          | none => Except.error (PyErr.keyError "status")
          | some (_, sh1) =>
            let sh2 := dictSet sh1 "status" (.str "blocked")
            let resp2 := PyVal.dict (dictSet d "simple-html" (.dict sh2))
            match dictLookup sh2 "HTML" with
            | none => Except.error (PyErr.keyError "HTML")
            | some hv =>
              match hv with
              | .str html =>
                if blacklistMatches sources html then Except.ok (false, resp2, [resp2])
                else Except.ok (true, resp2, [])
              | _ => Except.error PyErr.typeError
        | _ => Except.error PyErr.typeError
    | _ => Except.error PyErr.typeError
  else Except.error PyErr.nameError

/-- A record delivered by the collector; `Operator.process` only reads `url`. -/
structure Onion where
  url : String

/-- The observable effects of one `process` run: info-log messages, envelopes
written through `es.save`, and the urls passed to `handle_onion`. -/
structure ProcState where
  infoLogs : List String
  saved : List PyVal
  handled : List String

/-- The state before any record is processed. -/
def initState : ProcState := ⟨[], [], []⟩

/-- The literal `\x7b'status': 'blocked'\x7d` that `process` feeds to
`response`. -/
def blockedContent : PyVal := PyVal.dict [("status", PyVal.str "blocked")]

/-- The blocked-candidate envelope `process` builds for the record at `url`:
`response` always takes its fallback branch on `blockedContent`, because
`str(\x7b'status': 'blocked'\x7d)` is single-quoted and not valid JSON. -/
def procEnv (url : String) : PyVal :=
  PyVal.dict [("regex-blacklist", blockedContent), ("hiddenService", PyVal.str url)]

/-- One iteration of the loop body of `Operator.process`: build the
blocked-candidate envelope via `response(\x7b'status':'blocked'\x7d, onion.url,
'regex-blacklist')`, classify it with `type='URL'`, and call `handle_onion`
when allowed.  `handle` is the abstract `handle_onion` of the subclass (the
base class raises `NotImplementedError`).  The second component is the
exception escaping this iteration, if any. -/
def processOne (sources : List String) (handle : String → Except PyErr Unit)
    (st : ProcState) (o : Onion) : ProcState × Option PyErr :=
  let r := response blockedContent o.url "regex-blacklist"
  let st1 : ProcState := { st with infoLogs := st.infoLogs ++ r.2 }
  match onion_is_allowed sources r.1 "URL" with
  | Except.error e => (st1, some e)
  | Except.ok (allowed, _, saves) =>
    let st2 : ProcState := { st1 with saved := st1.saved ++ saves }
    if allowed then
      let st3 : ProcState := { st2 with handled := st2.handled ++ [o.url] }
      match handle o.url with
      | Except.ok _ => (st3, none)
      | Except.error e => (st3, some e)
    else (st2, none)

/-- `Operator.process(onions)`: iterate the batch in input order; an exception
escaping an iteration propagates immediately (nothing in `process` catches),
keeping the effects already performed and abandoning the remaining records. -/
def process (sources : List String) (handle : String → Except PyErr Unit) :
    List Onion → ProcState → ProcState × Option PyErr
  | [], st => (st, none)
  | o :: rest, st =>
    match processOne sources handle st o with
    | (st1, none) => process sources handle rest st1
    | (st1, some e) => (st1, some e)

/-! ## Matcher lemmas -/

theorem startsWithL_iff (n : List Char) : ∀ h : List Char,
    startsWithL n h = true ↔ ∃ t, h = n ++ t := by
  induction n with
  | nil =>
    intro h
    simp [startsWithL]
  | cons a as ih =>
    intro h
    cases h with
    | nil =>
      simp [startsWithL]
    | cons b bs =>
      simp only [startsWithL, Bool.and_eq_true, beq_iff_eq, ih, List.cons_append,
        List.cons.injEq]
      constructor
      · rintro ⟨rfl, t, rfl⟩
        exact ⟨t, rfl, rfl⟩
      · rintro ⟨t, rfl, rfl⟩
        exact ⟨rfl, t, rfl⟩

theorem occursIn_iff (n : List Char) : ∀ h : List Char,
    occursIn n h = true ↔ ∃ p t, h = p ++ n ++ t := by
  intro h
  induction h with
  | nil =>
    simp only [occursIn, List.isEmpty_iff]
    constructor
    · rintro rfl
      exact ⟨[], [], rfl⟩
    · rintro ⟨p, t, hpt⟩
      rcases List.append_eq_nil.mp (List.append_eq_nil.mp hpt.symm).1 with ⟨-, h2⟩
      exact h2
  | cons c cs ih =>
    simp only [occursIn, Bool.or_eq_true, startsWithL_iff, ih]
    constructor
    · rintro (⟨t, ht⟩ | ⟨p, t, hpt⟩)
      · exact ⟨[], t, by simpa using ht⟩
      · exact ⟨c :: p, t, by simp [hpt]⟩
    · rintro ⟨p, t, hpt⟩
      cases p with
      | nil =>
        exact Or.inl ⟨t, by simpa using hpt⟩
      | cons c0 p0 =>
        simp only [List.cons_append, List.cons.injEq] at hpt
        exact Or.inr ⟨p0, t, hpt.2⟩

/-! ## Dict lemmas -/

theorem dictLookup_set_self (d : List (String × PyVal)) (k : String) (v : PyVal) :
    dictLookup (dictSet d k v) k = some v := by
  induction d with
  | nil => simp [dictSet, dictLookup]
  | cons e rest ih =>
    by_cases hk : e.1 = k
    · simp [dictSet, dictLookup, hk]
    · simp [dictSet, dictLookup, hk, ih]

theorem dictLookup_set_ne (d : List (String × PyVal)) (k k0 : String) (v : PyVal)
    (h : k0 ≠ k) : dictLookup (dictSet d k v) k0 = dictLookup d k0 := by
  induction d with
  | nil => simp [dictSet, dictLookup, Ne.symm h]
  | cons e rest ih =>
    by_cases hk : e.1 = k
    · simp [dictSet, dictLookup, hk, Ne.symm h]
    · by_cases hk0 : e.1 = k0
      · simp [dictSet, dictLookup, hk, hk0, h]
      · simp [dictSet, dictLookup, hk, hk0, ih]

theorem dictPop_lookup_ne (sh sh1 : List (String × PyVal)) (key k : String) (v0 : PyVal)
    (hpop : dictPop sh key = some (v0, sh1)) (hk : k ≠ key) :
    dictLookup sh1 k = dictLookup sh k := by
  induction sh generalizing sh1 with
  | nil => simp [dictPop] at hpop
  | cons e rest ih =>
    by_cases he : e.1 = key
    · rw [dictPop, if_pos he] at hpop
      obtain ⟨-, rfl⟩ : v0 = e.2 ∧ sh1 = rest := by
        simpa using hpop.symm
      rw [dictLookup, if_neg (by rw [he]; exact fun h2 => hk h2.symm)]
    · rw [dictPop, if_neg he] at hpop
      cases hrec : dictPop rest key with
      | none => rw [hrec] at hpop; simp at hpop
      | some p =>
        rw [hrec] at hpop
        obtain ⟨rfl, rfl⟩ : v0 = p.1 ∧ sh1 = e :: p.2 := by
          simpa using hpop.symm
        by_cases hek : e.1 = k
        · simp [dictLookup, hek]
        · simp only [dictLookup, if_neg hek]
          exact ih p.2 (by simpa using hrec)

/-! ## Classifier and loop lemmas -/

theorem onion_is_allowed_url_eq (sources : List String) (d : List (String × PyVal))
    (hs : String) (h : dictLookup d "hiddenService" = some (PyVal.str hs)) :
    onion_is_allowed sources (PyVal.dict d) "URL" =
      if blacklistMatches sources hs then
        Except.ok (false, PyVal.dict d, [PyVal.dict d])
      else Except.ok (true, PyVal.dict d, []) := by
  simp [onion_is_allowed, h]

theorem onion_is_allowed_html_eq (sources : List String)
    (d sh sh1 : List (String × PyVal)) (v0 : PyVal) (html : String)
    (hsh : dictLookup d "simple-html" = some (PyVal.dict sh))
    (hpop : dictPop sh "status" = some (v0, sh1))
    (hhtml : dictLookup sh1 "HTML" = some (PyVal.str html)) :
    onion_is_allowed sources (PyVal.dict d) "HTML" =
      (let d2 := PyVal.dict
        (dictSet d "simple-html" (PyVal.dict (dictSet sh1 "status" (PyVal.str "blocked"))))
       if blacklistMatches sources html then Except.ok (false, d2, [d2])
       else Except.ok (true, d2, [])) := by
  have hhtml2 :
      dictLookup (dictSet sh1 "status" (PyVal.str "blocked")) "HTML" =
        some (PyVal.str html) := by
    rw [dictLookup_set_ne sh1 "status" "HTML" _ (by decide)]
    exact hhtml
  simp [onion_is_allowed, hsh, hpop, hhtml2]

theorem response_blocked (url : String) :
    response blockedContent url "regex-blacklist" = (procEnv url, ["JosnDecode Error"]) := rfl

theorem procEnv_lookup (url : String) :
    dictLookup [("regex-blacklist", blockedContent), ("hiddenService", PyVal.str url)]
      "hiddenService" = some (PyVal.str url) := by
  simp [dictLookup]

theorem processOne_blocked (sources : List String) (handle : String → Except PyErr Unit)
    (st : ProcState) (o : Onion) (h : blacklistMatches sources o.url = true) :
    processOne sources handle st o =
      ({ st with infoLogs := st.infoLogs ++ ["JosnDecode Error"],
                 saved := st.saved ++ [procEnv o.url] }, none) := by
  simp only [processOne, response_blocked]
  rw [show procEnv o.url =
        PyVal.dict [("regex-blacklist", blockedContent), ("hiddenService", PyVal.str o.url)]
      from rfl]
  rw [onion_is_allowed_url_eq sources _ o.url (procEnv_lookup o.url)]
  rw [if_pos h]
  rfl

theorem processOne_allowed (sources : List String) (handle : String → Except PyErr Unit)
    (st : ProcState) (o : Onion) (h : blacklistMatches sources o.url = false) :
    processOne sources handle st o =
      (match handle o.url with
       | Except.ok _ =>
         ({ st with infoLogs := st.infoLogs ++ ["JosnDecode Error"],
                    handled := st.handled ++ [o.url] }, none)
       | Except.error e =>
         ({ st with infoLogs := st.infoLogs ++ ["JosnDecode Error"],
                    handled := st.handled ++ [o.url] }, some e)) := by
  simp only [processOne, response_blocked]
  rw [show procEnv o.url =
        PyVal.dict [("regex-blacklist", blockedContent), ("hiddenService", PyVal.str o.url)]
      from rfl]
  rw [onion_is_allowed_url_eq sources _ o.url (procEnv_lookup o.url)]
  rw [if_neg (by simp [h])]
  cases handle o.url <;> simp

theorem process_ok_char (sources : List String) (handle : String → Except PyErr Unit) :
    ∀ (onions : List Onion) (st stF : ProcState),
      process sources handle onions st = (stF, none) →
      stF.saved = st.saved ++
          (onions.filter (fun o => blacklistMatches sources o.url)).map (fun o => procEnv o.url) ∧
      stF.handled = st.handled ++
          (onions.filter (fun o => !blacklistMatches sources o.url)).map Onion.url := by
  intro onions
  induction onions with
  | nil =>
    intro st stF h
    obtain ⟨rfl, -⟩ : st = stF ∧ True := by simpa [process] using h
    simp
  | cons o rest ih =>
    intro st stF h
    cases hb : blacklistMatches sources o.url with
    | true =>
      have hstep : process sources handle (o :: rest) st =
          process sources handle rest
            { st with infoLogs := st.infoLogs ++ ["JosnDecode Error"],
                      saved := st.saved ++ [procEnv o.url] } := by
        simp [process, processOne_blocked sources handle st o hb]
      rw [hstep] at h
      obtain ⟨h1, h2⟩ := ih _ _ h
      refine ⟨?_, ?_⟩ <;> simp [List.filter_cons, hb, h1, h2]
    | false =>
      cases hh : handle o.url with
      | ok u =>
        have hstep : process sources handle (o :: rest) st =
            process sources handle rest
              { st with infoLogs := st.infoLogs ++ ["JosnDecode Error"],
                        handled := st.handled ++ [o.url] } := by
          simp [process, processOne_allowed sources handle st o hb, hh]
        rw [hstep] at h
        obtain ⟨h1, h2⟩ := ih _ _ h
        refine ⟨?_, ?_⟩ <;> simp [List.filter_cons, hb, h1, h2]
      | error e =>
        simp [process, processOne_allowed sources handle st o hb, hh] at h

theorem length_filter_not_add (p : Onion → Bool) (l : List Onion) :
    (l.filter p).length + (l.filter (fun a => !p a)).length = l.length := by
  induction l with
  | nil => rfl
  | cons a t ih =>
    cases h : p a <;> simp [List.filter_cons, h] <;> omega

theorem process_append (sources : List String) (handle : String → Except PyErr Unit) :
    ∀ (xs ys : List Onion) (st : ProcState),
      process sources handle (xs ++ ys) st =
        (match process sources handle xs st with
         | (st1, none) => process sources handle ys st1
         | (st1, some e) => (st1, some e)) := by
  intro xs
  induction xs with
  | nil => intro ys st; simp [process]
  | cons o rest ih =>
    intro ys st
    simp only [List.cons_append, process]
    cases hp : processOne sources handle st o with
    | mk st1 oe =>
      cases oe with
      | none => simp [ih]
      | some e => simp

/-! ## Claim theorems -/

/-- Claim C1 counterexample: with the empty AllowedSources list the pattern
compiled in `__init__` is the empty alternation `re.compile('')`, whose
`findall` is non-empty on every text (it matches the empty string), although
no configured literal occurs as a substring — there are no literals. -/
theorem blacklist_empty_counterexample :
    blacklistMatches [] "a" = true ∧ ¬∃ w ∈ ([] : List String), CiSubstring w "a" := by
  refine ⟨rfl, ?_⟩
  rintro ⟨w, hw, -⟩
  simp at hw

/-- Claim C1 (amended): for every NON-EMPTY AllowedSources list and every
subject text, the exclusion matcher built at construction reports a match
(`findall` non-empty) iff at least one configured literal occurs as a
case-insensitive substring of the text; special pattern characters in
literals are treated literally (each literal is `re.escape`d).  The
restriction to non-empty lists is forced by
`blacklist_empty_counterexample`. -/
theorem blacklist_matches_iff (sources : List String) (text : String)
    (h : sources ≠ []) :
    blacklistMatches sources text = true ↔ ∃ w ∈ sources, CiSubstring w text := by
  have hne : sources.isEmpty = false := by
    cases sources with
    | nil => exact absurd rfl h
    | cons a t => rfl
  simp only [blacklistMatches, hne, Bool.false_or, List.any_eq_true, occursIn_iff,
    CiSubstring]

/-- Concrete instance of `blacklist_matches_iff`: `"Spam"` is found
case-insensitively inside `"xxSPAMyy"`. -/
theorem blacklist_matches_iff_witness :
    blacklistMatches ["Spam"] "xxSPAMyy" = true := by
  refine (blacklist_matches_iff ["Spam"] "xxSPAMyy" (by simp)).mpr ?_
  exact ⟨"Spam", by simp, ⟨['x', 'x'], ['y', 'y'], by decide⟩⟩

/-- Claim C5 counterexample: with `operator_name = 'hiddenService'` the address
entry of the dict literal built by `response` overrides the payload entry
(a Python dict literal keeps the last duplicate key), so the returned
envelope does not carry the decoded structure under the operator-name key. -/
theorem response_decoded_collision_counterexample :
    jsonLoads (pyStr (PyVal.str "null")) = some PyVal.pynone ∧
      envGet (response (PyVal.str "null") "x" "hiddenService").1 "hiddenService" ≠
        some PyVal.pynone := by
  refine ⟨rfl, ?_⟩
  intro hcontra
  have h2 : some (PyVal.str "x") = some PyVal.pynone := hcontra
  injection h2 with h3
  exact PyVal.noConfusion h3

/-- Claim C5 (amended): for every raw payload whose stringification parses as
valid structured (JSON) data, and every operator name other than the reserved
address key `'hiddenService'`, `response` returns an envelope whose payload
under the operator-name key equals the decoded structure, never the raw
string. -/
theorem response_decoded_payload (content : PyVal) (onion operator_name : String)
    (decoded : PyVal) (hparse : jsonLoads (pyStr content) = some decoded)
    (hname : operator_name ≠ "hiddenService") :
    envGet (response content onion operator_name).1 operator_name = some decoded := by
  unfold response
  rw [hparse]
  simp [envGet, mkDict, dictLookup_set_ne _ _ _ _ hname, dictLookup_set_self]

/-- Concrete instance of `response_decoded_payload`: the payload `"null"`
decodes to `None`, which lands under the `"opX"` key. -/
theorem response_decoded_payload_witness :
    envGet (response (PyVal.str "null") "addr1" "opX").1 "opX" = some PyVal.pynone :=
  response_decoded_payload (PyVal.str "null") "addr1" "opX" PyVal.pynone rfl (by decide)

/-- Claim C6 counterexample: on the raw-fallback branch with
`operator_name = 'hiddenService'` the address entry overrides the payload
entry, so the envelope does not carry the raw input under the operator-name
key. -/
theorem response_raw_collision_counterexample :
    jsonLoads (pyStr (PyVal.str "not-json")) = none ∧
      envGet (response (PyVal.str "not-json") "addr1" "hiddenService").1 "hiddenService" ≠
        some (PyVal.str "not-json") := by
  refine ⟨rfl, ?_⟩
  intro hcontra
  have h2 : some (PyVal.str "addr1") = some (PyVal.str "not-json") := hcontra
  injection h2 with h3
  injection h3 with h4
  exact absurd h4 (by decide)

/-- Claim C6 (amended): for every raw payload that is not valid structured
(JSON) data, `response` returns normally (the fallback path never raises:
the model is total) and emits exactly one informational log message; provided
the operator name is not the reserved address key `'hiddenService'`, the
envelope's payload under the operator-name key is the original raw input
unchanged. -/
theorem response_raw_fallback (content : PyVal) (onion operator_name : String)
    (hparse : jsonLoads (pyStr content) = none)
    (hname : operator_name ≠ "hiddenService") :
    (response content onion operator_name).2 = ["JosnDecode Error"] ∧
      envGet (response content onion operator_name).1 operator_name = some content := by
  unfold response
  rw [hparse]
  refine ⟨rfl, ?_⟩
  simp [envGet, mkDict, dictLookup_set_ne _ _ _ _ hname, dictLookup_set_self]

/-- Concrete instance of `response_raw_fallback`: `"not-json"` does not parse
and survives unchanged under the `"opX"` key. -/
theorem response_raw_fallback_witness :
    envGet (response (PyVal.str "not-json") "addr1" "opX").1 "opX" =
      some (PyVal.str "not-json") :=
  (response_raw_fallback (PyVal.str "not-json") "addr1" "opX" rfl (by decide)).2

/-- Claim C7: every envelope `response` returns — on the decoded branch and on
the raw-fallback branch alike — carries the originating record's address
unchanged under the `'hiddenService'` field (the address entry is written
last in the dict literal, so it survives even a key collision). -/
theorem response_carries_address (content : PyVal) (onion operator_name : String) :
    envGet (response content onion operator_name).1 "hiddenService" =
      some (PyVal.str onion) := by
  unfold response
  cases jsonLoads (pyStr content) <;>
    simp [envGet, mkDict, dictLookup_set_self]

/-- Claim C8 counterexample: constructing an `Operator` with the empty source
list does not raise — `'|'.join([])` is `''` and `re.compile('')` succeeds —
so no error surfaces at construction time. -/
theorem operatorInit_empty_counterexample :
    operatorInit (some []) = Except.ok ([] : List String) := rfl

/-- Claim C8 (amended): constructing an `Operator` with an empty source list is
silently accepted rather than failing; the matcher compiled from it is the
empty pattern, which reports a match on every text, so every record would be
classified blocked. -/
theorem operatorInit_empty_accepted (text : String) :
    operatorInit (some []) = Except.ok ([] : List String) ∧
      blacklistMatches [] text = true :=
  ⟨rfl, rfl⟩

/-- Claim C3: for every candidate envelope (with the fields the code reads
present and well-typed) and kind in URL/HTML, `_onion_is_allowed` tests the
subject's address (URL kind) or its textual content (HTML kind) against the
exclusion matcher; on a match it calls the archival store's `save` with the
envelope (as mutated, for HTML) and returns `False`; on no match it returns
`True` and performs no storage write. -/
theorem onion_is_allowed_spec (sources : List String) (d : List (String × PyVal)) :
    (∀ hs, dictLookup d "hiddenService" = some (PyVal.str hs) →
      onion_is_allowed sources (PyVal.dict d) "URL" =
        if blacklistMatches sources hs then
          Except.ok (false, PyVal.dict d, [PyVal.dict d])
        else Except.ok (true, PyVal.dict d, [])) ∧
    (∀ (sh sh1 : List (String × PyVal)) (v0 : PyVal) (html : String),
      dictLookup d "simple-html" = some (PyVal.dict sh) →
      dictPop sh "status" = some (v0, sh1) →
      dictLookup sh1 "HTML" = some (PyVal.str html) →
      onion_is_allowed sources (PyVal.dict d) "HTML" =
        (let d2 := PyVal.dict
          (dictSet d "simple-html" (PyVal.dict (dictSet sh1 "status" (PyVal.str "blocked"))))
         if blacklistMatches sources html then Except.ok (false, d2, [d2])
         else Except.ok (true, d2, []))) :=
  ⟨fun hs h => onion_is_allowed_url_eq sources d hs h,
   fun sh sh1 v0 html h1 h2 h3 => onion_is_allowed_html_eq sources d sh sh1 v0 html h1 h2 h3⟩

/-- Concrete instances of `onion_is_allowed_spec`: a matching address is saved
and refused; a clean HTML content is allowed with no save (and the mutated
envelope returned). -/
theorem onion_is_allowed_spec_witness :
    onion_is_allowed ["bad"] (PyVal.dict [("hiddenService", PyVal.str "http://BAD.onion")])
        "URL" =
      Except.ok (false, PyVal.dict [("hiddenService", PyVal.str "http://BAD.onion")],
        [PyVal.dict [("hiddenService", PyVal.str "http://BAD.onion")]]) ∧
    onion_is_allowed ["bad"]
        (PyVal.dict [("simple-html",
          PyVal.dict [("status", PyVal.str "ok"), ("HTML", PyVal.str "clean page")])])
        "HTML" =
      Except.ok (true, PyVal.dict [("simple-html",
        PyVal.dict [("HTML", PyVal.str "clean page"), ("status", PyVal.str "blocked")])],
        []) := by
  constructor
  · have h := (onion_is_allowed_spec ["bad"]
      [("hiddenService", PyVal.str "http://BAD.onion")]).1 "http://BAD.onion" rfl
    rw [h, if_pos (by decide)]
  · have h := (onion_is_allowed_spec ["bad"]
      [("simple-html", PyVal.dict [("status", PyVal.str "ok"), ("HTML", PyVal.str "clean page")])]).2
      [("status", PyVal.str "ok"), ("HTML", PyVal.str "clean page")]
      [("HTML", PyVal.str "clean page")] (PyVal.str "ok") "clean page" rfl rfl rfl
    rw [h]
    rfl

/-- Claim C10: for the HTML kind, `_onion_is_allowed` mutates its input
envelope before matching — the `'status'` entry of the `'simple-html'`
sub-map is popped and re-set to `'blocked'` — and the mutation persists in
the envelope the call returns even when the record is classified allowed (no
match, result `True`, no save); all other entries of the sub-map and of the
envelope are unchanged; the URL branch returns the envelope unmutated. -/
theorem onion_is_allowed_html_frame (sources : List String)
    (d sh sh1 : List (String × PyVal)) (v0 : PyVal) (html : String)
    (hsh : dictLookup d "simple-html" = some (PyVal.dict sh))
    (hpop : dictPop sh "status" = some (v0, sh1))
    (hhtml : dictLookup sh1 "HTML" = some (PyVal.str html)) :
    (blacklistMatches sources html = false →
      onion_is_allowed sources (PyVal.dict d) "HTML" =
        Except.ok (true, PyVal.dict
          (dictSet d "simple-html" (PyVal.dict (dictSet sh1 "status" (PyVal.str "blocked")))),
          [])) ∧
    dictLookup (dictSet sh1 "status" (PyVal.str "blocked")) "status" =
      some (PyVal.str "blocked") ∧
    (∀ k, k ≠ "status" →
      dictLookup (dictSet sh1 "status" (PyVal.str "blocked")) k = dictLookup sh k) ∧
    (∀ k, k ≠ "simple-html" →
      dictLookup (dictSet d "simple-html"
        (PyVal.dict (dictSet sh1 "status" (PyVal.str "blocked")))) k = dictLookup d k) ∧
    (∀ hs, dictLookup d "hiddenService" = some (PyVal.str hs) →
      ∃ b saves, onion_is_allowed sources (PyVal.dict d) "URL" =
        Except.ok (b, PyVal.dict d, saves)) := by
  refine ⟨?_, dictLookup_set_self sh1 "status" (PyVal.str "blocked"), ?_, ?_, ?_⟩
  · intro hbl
    rw [onion_is_allowed_html_eq sources d sh sh1 v0 html hsh hpop hhtml]
    simp [hbl]
  · intro k hk
    rw [dictLookup_set_ne sh1 "status" k (PyVal.str "blocked") hk]
    exact dictPop_lookup_ne sh sh1 "status" k v0 hpop hk
  · intro k hk
    exact dictLookup_set_ne d "simple-html" k _ hk
  · intro hs h
    rw [onion_is_allowed_url_eq sources d hs h]
    cases hbl : blacklistMatches sources hs with
    | true => exact ⟨false, [PyVal.dict d], rfl⟩
    | false => exact ⟨true, [], rfl⟩

/-- Concrete instance of `onion_is_allowed_html_frame`: the allowed HTML
record comes back with its `'status'` rewritten to `'blocked'` and nothing
saved. -/
theorem onion_is_allowed_html_frame_witness :
    onion_is_allowed ["z"]
        (PyVal.dict [("simple-html",
          PyVal.dict [("status", PyVal.str "ok"), ("HTML", PyVal.str "hello")])]) "HTML" =
      Except.ok (true, PyVal.dict [("simple-html",
        PyVal.dict [("HTML", PyVal.str "hello"), ("status", PyVal.str "blocked")])], []) := by
  have h := (onion_is_allowed_html_frame ["z"]
    [("simple-html", PyVal.dict [("status", PyVal.str "ok"), ("HTML", PyVal.str "hello")])]
    [("status", PyVal.str "ok"), ("HTML", PyVal.str "hello")]
    [("HTML", PyVal.str "hello")] (PyVal.str "ok") "hello" rfl rfl rfl).1 rfl
  exact h

/-- Claim C2: for every batch that `process` runs to completion, each record
reaches exactly one of the two terminal outcomes — its blocked-candidate
envelope archived, or its url handled by exactly one `handle_onion` call —
so archived + handled equals the batch size with no record counted in both:
the archived envelopes are exactly those of the matching records and the
handled urls exactly those of the non-matching ones. -/
theorem process_partition (sources : List String) (handle : String → Except PyErr Unit)
    (onions : List Onion) (stF : ProcState)
    (h : process sources handle onions initState = (stF, none)) :
    stF.saved.length + stF.handled.length = onions.length ∧
    stF.saved =
      (onions.filter (fun o => blacklistMatches sources o.url)).map (fun o => procEnv o.url) ∧
    stF.handled =
      (onions.filter (fun o => !blacklistMatches sources o.url)).map Onion.url := by
  obtain ⟨h1, h2⟩ := process_ok_char sources handle onions initState stF h
  simp only [initState, List.nil_append] at h1 h2
  refine ⟨?_, h1, h2⟩
  rw [h1, h2]
  simp only [List.length_map]
  exact length_filter_not_add _ onions

/-- Concrete instance of `process_partition`: one blocked and one handled
record give two terminal outcomes for a batch of two. -/
theorem process_partition_witness :
    ∃ stF, process ["spamsite"] (fun _ => Except.ok ())
        [⟨"http://spamsite.onion/x"⟩, ⟨"http://legit.onion/y"⟩] initState = (stF, none) ∧
      stF.saved.length + stF.handled.length = 2 := by
  have h := process_partition ["spamsite"] (fun _ => Except.ok ())
    [⟨"http://spamsite.onion/x"⟩, ⟨"http://legit.onion/y"⟩]
    ⟨["JosnDecode Error", "JosnDecode Error"], [procEnv "http://spamsite.onion/x"],
      ["http://legit.onion/y"]⟩ rfl
  exact ⟨_, rfl, h.1⟩

/-- Claim C4 counterexample: in the spamsite scenario the archived envelope's
payload under the operator key is the marker dict (the decode of
`str(\x7b'status': 'blocked'\x7d)` fails, so the raw dict is kept), not the bare
string `"blocked"` the claim states. -/
theorem process_blocked_payload_counterexample :
    (process ["spamsite"] (fun _ => Except.ok ())
        [⟨"http://spamsite.onion/x"⟩] initState).1.saved.map
        (fun e => envGet e "regex-blacklist") =
      [some (PyVal.dict [("status", PyVal.str "blocked")])] ∧
    PyVal.dict [("status", PyVal.str "blocked")] ≠ PyVal.str "blocked" :=
  ⟨rfl, fun h => PyVal.noConfusion h⟩

/-- Claim C4 (amended): with `AllowedSources = ["spamsite"]`, processing the
record at `"http://spamsite.onion/x"` classifies it blocked whatever the
handler is: exactly one archival write occurs, the archived envelope carries
the blocked marker `\x7b'status': 'blocked'\x7d` under the operator key
`'regex-blacklist'` and the record's address under `'hiddenService'`, and
`handle_onion` is never invoked. -/
theorem process_spamsite_blocked (handle : String → Except PyErr Unit) :
    process ["spamsite"] handle [⟨"http://spamsite.onion/x"⟩] initState =
      (⟨["JosnDecode Error"], [procEnv "http://spamsite.onion/x"], []⟩, none) ∧
    envGet (procEnv "http://spamsite.onion/x") "regex-blacklist" =
      some (PyVal.dict [("status", PyVal.str "blocked")]) ∧
    envGet (procEnv "http://spamsite.onion/x") "hiddenService" =
      some (PyVal.str "http://spamsite.onion/x") :=
  ⟨rfl, rfl, rfl⟩

/-- Claim C9: `process` iterates the batch in input order, and an exception
raised while processing a record (from `handle_onion` or from
`_onion_is_allowed`) is not caught by `process`: the effects of the earlier
records are kept, the error propagates to the caller, and the result does not
depend on the records after the failing one — none of them is classified or
handled. -/
theorem process_error_propagates (sources : List String)
    (handle : String → Except PyErr Unit) (pre post : List Onion) (o : Onion)
    (st st1 st2 : ProcState) (e : PyErr)
    (hpre : process sources handle pre st = (st1, none))
    (ho : processOne sources handle st1 o = (st2, some e)) :
    process sources handle (pre ++ o :: post) st = (st2, some e) := by
  rw [process_append sources handle pre (o :: post) st, hpre]
  show process sources handle (o :: post) st1 = (st2, some e)
  simp only [process]
  rw [ho]

/-- Concrete instance of `process_error_propagates`: the handler fails on the
second record, the first record's effects are kept, and the third record is
never reached. -/
theorem process_error_propagates_witness :
    process ["spamsite"]
        (fun u => if u = "boom" then Except.error PyErr.notImplementedError
                  else Except.ok ())
        ([⟨"good"⟩] ++ ⟨"boom"⟩ :: [⟨"never"⟩]) initState =
      (⟨["JosnDecode Error", "JosnDecode Error"], [], ["good", "boom"]⟩,
        some PyErr.notImplementedError) :=
  process_error_propagates ["spamsite"]
    (fun u => if u = "boom" then Except.error PyErr.notImplementedError
              else Except.ok ())
    [⟨"good"⟩] [⟨"never"⟩] ⟨"boom"⟩ initState
    ⟨["JosnDecode Error"], [], ["good"]⟩
    ⟨["JosnDecode Error", "JosnDecode Error"], [], ["good", "boom"]⟩
    PyErr.notImplementedError rfl rfl
